import Mathlib

/-!
# A verification development for the Monkey interpreter core

This file embeds the tree-walking evaluator of the repository (the
`evaluator` package, together with the `object` package's object model and
environment) as executable Lean definitions, and proves properties of the
embedding.

Embedding conventions:

* Go's `int64` is modelled as `Int` with an explicit two's-complement wrap
  (`wrap64`) applied exactly where Go arithmetic can overflow.
* Go's `object.Object` interface values may be `nil`; a possibly-nil object
  is `Option Obj`, with `none` standing for the nil interface value.
* A Go runtime panic is the `Outcome.goPanic` result; evaluation is bounded
  by an explicit recursion budget (`fuel`), and exhausting it yields
  `Outcome.timeout`.  Every recursive call burns one unit of fuel, so the
  definitions are structurally recursive and compute by `rfl`/`decide`.
* `Environment` is a chain of frames; the head of the list is the current
  frame, the tail is the outer chain.  `Set` writes only the head frame,
  exactly as `Environment.Set` writes only `env.store`.
* Pointer identity of the process-wide `TRUE`/`FALSE` singletons is
  observable in Go (the evaluator compares `condition == TRUE`), so the
  `Obj.Boolean` constructor carries a second flag: `false` marks the
  process-wide singleton allocations, and a hypothetical fresh
  `&object.Boolean{}` allocation would carry `true`.  The evaluator, like
  the source, only ever builds booleans through
  `convertNativeBooleanToObject`, which returns the singletons.
-/

/-! ## The AST (package `ast`, as used by the evaluator and described in §3) -/

mutual

/-- Expression nodes of the `ast` package. -/
inductive Expr where
  | Identifier (value : String)
  | IntegerLiteral (value : Int)
  | BooleanLiteral (value : Bool)
  | StringLiteral (value : String)
  | PrefixExpression (operator : String) (right : Expr)
  | InfixExpression (left : Expr) (operator : String) (right : Expr)
  | IfExpression (condition : Expr) (consequence : List Stmt)
      (alternative : Option (List Stmt))
  | FunctionLiteral (parameters : List String) (body : List Stmt)
  | CallExpression (function : Expr) (arguments : List Expr)

/-- Statement nodes of the `ast` package.  A `BlockStatement` carries its
statement list directly. -/
inductive Stmt where
  | LetStatement (name : String) (value : Expr)
  | ReturnStatement (returnValue : Expr)
  | ExpressionStatement (expression : Expr)
  | BlockStatement (statements : List Stmt)

end

/-- An `ast.Node` handed to `Eval`: a whole program, a statement, or an
expression. -/
inductive Node where
  | program (statements : List Stmt)
  | statement (s : Stmt)
  | expression (e : Expr)

/-! ## The object model (package `object`) -/

/-- Runtime values (`object.Object`).  `Function.environment` is the
environment captured at the function literal's definition site
(`object.Function.Environment`); it is stored as a snapshot, which is
observationally exact here because `applyFunction` never reads it (it
encloses the caller's environment instead).  The second `Boolean` field
models allocation identity, see the header. -/
inductive Obj where
  | Integer (value : Int)
  | Boolean (value : Bool) (isFresh : Bool)
  | String (value : String)
  | Null
  | ReturnValue (value : Option Obj)
  | Error (message : String)
  | Function (parameters : List String) (body : List Stmt)
      (environment : List (List (String × Option Obj)))

/-- One scope's bindings (`Environment.store`). -/
abbrev Frame := List (String × Option Obj)

/-- The environment chain: current frame first, then the outer chain
(`Environment.outer`). -/
abbrev Env := List Frame

/-! ## Environment operations (`object.Environment`) -/

/-- `env.store[name]`: first binding for `name` in one frame.  A hit whose
stored value is `none` models a map entry holding the nil interface. -/
def frameGet (name : String) : Frame → Option (Option Obj)
  | [] => none
  | (k, v) :: rest => if k = name then some v else frameGet name rest

/-- `Environment.Get`: look in the current store, and on a miss cascade to
the outer chain.  `none` is the `ok = false` result. -/
def envGet (name : String) : Env → Option (Option Obj)
  | [] => none
  | frame :: outer =>
    match frameGet name frame with
    | some v => some v
    | none => envGet name outer

/-- `env.store[name] = object` inside one frame: replace the existing entry
or add a new one. -/
def frameSet (name : String) (value : Option Obj) : Frame → Frame
  | [] => [(name, value)]
  | (k, v) :: rest =>
    if k = name then (k, value) :: rest else (k, v) :: frameSet name value rest

/-- `Environment.Set`: assign unconditionally in the current frame only.
(The empty-chain case is unreachable: every environment the interpreter
builds has at least one frame.) -/
def envSet (name : String) (value : Option Obj) : Env → Env
  | [] => []
  | frame :: outer => frameSet name value frame :: outer

/-- `object.NewEnvironment()`. -/
def NewEnvironment : Env := [[]]

/-- `object.NewEnclosingEnvironment(outer)`: a fresh empty frame in front of
the outer chain. -/
def NewEnclosingEnvironment (outer : Env) : Env := [] :: outer

/-! ## Singletons and small helpers of the `evaluator` package -/

/-- The process-wide `TRUE` singleton (`&object.Boolean{Value: true}`). -/
def TRUE : Obj := .Boolean true false

/-- The process-wide `FALSE` singleton. -/
def FALSE : Obj := .Boolean false false

/-- The process-wide `NULL` singleton. -/
def NULL : Obj := .Null

/-- `object.Object.Type()`.  (`BUILDIN` objects are never constructed by
this evaluator — there is no builtin registry — so they are omitted.) -/
def typeOf : Obj → String
  | .Integer _ => "INTEGER"
  | .Boolean _ _ => "BOOLEAN"
  | .String _ => "STRING"
  | .Null => "NULL"
  | .ReturnValue _ => "RETURN_VALUE"
  | .Error _ => "ERROR"
  | .Function _ _ _ => "FUNCTION"

/-- `isError(target)`: a type check against `*object.Error`; false for nil. -/
def isError : Option Obj → Bool
  | some (.Error _) => true
  | _ => false

/-- `convertNativeBooleanToObject`: native booleans become the singletons,
never fresh allocations. -/
def convertNativeBooleanToObject (value : Bool) : Obj :=
  if value then TRUE else FALSE

/-- Two's-complement wrap-around of Go `int64` arithmetic. -/
def wrap64 (x : Int) : Int := (x + 2 ^ 63) % 2 ^ 64 - 2 ^ 63

/-- Go panic message for a failed `.(*object.Function)` type assertion
(`applyFunction`'s argument in `evalCallExpression`). -/
def interfaceConversionPanic : String :=
  "interface conversion: object.Object is not *object.Function"

/-- Go panic message for `function.Parameters[i]` with `i` out of range. -/
def indexOutOfRangePanic : String := "runtime error: index out of range"

/-- Go panic message for integer division by zero. -/
def divideByZeroPanic : String := "runtime error: integer divide by zero"

/-- Go panic message for calling `.Type()` on a nil interface value. -/
def nilPointerPanic : String :=
  "runtime error: invalid memory address or nil pointer dereference"

/-- Result of one evaluation step: a normal return (the possibly-nil object
together with the caller-visible environment), a runtime panic, or an
exhausted recursion budget. -/
inductive Outcome where
  | ok (result : Option Obj) (env : Env)
  | goPanic (reason : String)
  | timeout

/-- Result of the environment-free operator helpers: a normal object or a
runtime panic. -/
inductive Res where
  | ok (result : Obj)
  | goPanic (reason : String)

/-- Lift an operator helper's result back into an evaluation outcome. -/
def liftRes : Res → Env → Outcome
  | .ok v, env => .ok (some v) env
  | .goPanic r, _ => .goPanic r

/-- The normally-returned object of an outcome, if any. -/
def Outcome.result? : Outcome → Option (Option Obj)
  | .ok r _ => some r
  | _ => none

/-! ## The environment-free operator helpers -/

/-- `evalInfixIntegerOperator`.  Both operands are asserted to
`*object.Integer`; on an assertion failure the error message calls
`.Type()` on both operands, which panics when one is nil.  Arithmetic uses
Go `int64` semantics: `+ - * /` wrap, `/` truncates toward zero and panics
on a zero divisor. -/
def evalInfixIntegerOperator (operator : String) (left right : Option Obj) : Res :=
  match left, right with
  | some (.Integer leftValue), some (.Integer rightValue) =>
    if operator = "+" then .ok (.Integer (wrap64 (leftValue + rightValue)))
    else if operator = "-" then .ok (.Integer (wrap64 (leftValue - rightValue)))
    else if operator = "*" then .ok (.Integer (wrap64 (leftValue * rightValue)))
    else if operator = "/" then
      if rightValue = 0 then .goPanic divideByZeroPanic
      else .ok (.Integer (wrap64 (Int.tdiv leftValue rightValue)))
    else if operator = "<" then
      .ok (convertNativeBooleanToObject (leftValue < rightValue))
    else if operator = "<=" then
      .ok (convertNativeBooleanToObject (leftValue ≤ rightValue))
    else if operator = ">" then
      .ok (convertNativeBooleanToObject (rightValue < leftValue))
    else if operator = ">=" then
      .ok (convertNativeBooleanToObject (rightValue ≤ leftValue))
    else if operator = "==" then
      .ok (convertNativeBooleanToObject (leftValue = rightValue))
    else if operator = "!=" then
      .ok (convertNativeBooleanToObject (leftValue ≠ rightValue))
    else .ok (.Error ("Unsupported operator: INTEGER " ++ operator ++ " INTEGER"))
  | none, _ => .goPanic nilPointerPanic
  | _, none => .goPanic nilPointerPanic
  | some l, some r =>
    .ok (.Error ("Type mismatch: " ++ typeOf l ++ " " ++ operator ++ " " ++ typeOf r))

/-- `evalInfixBooleanOperator`: only `==` and `!=`, by value, producing the
singletons. -/
def evalInfixBooleanOperator (operator : String) (left right : Option Obj) : Res :=
  match left, right with
  | some (.Boolean leftValue _), some (.Boolean rightValue _) =>
    if operator = "==" then .ok (convertNativeBooleanToObject (leftValue = rightValue))
    else if operator = "!=" then .ok (convertNativeBooleanToObject (leftValue ≠ rightValue))
    else .ok (.Error ("Unsupported operator: BOOLEAN " ++ operator ++ " BOOLEAN"))
  | none, _ => .goPanic nilPointerPanic
  | _, none => .goPanic nilPointerPanic
  | some l, some r =>
    .ok (.Error ("Type mismatch: " ++ typeOf l ++ " " ++ operator ++ " " ++ typeOf r))

/-- `evalInfixStringOperator`: only `+` (concatenation). -/
def evalInfixStringOperator (operator : String) (left right : Option Obj) : Res :=
  match left, right with
  | some (.String leftValue), some (.String rightValue) =>
    if operator = "+" then .ok (.String (leftValue ++ rightValue))
    else .ok (.Error ("Unsupported operator: STRING " ++ operator ++ " STRING"))
  | none, _ => .goPanic nilPointerPanic
  | _, none => .goPanic nilPointerPanic
  | some l, some r =>
    .ok (.Error ("Type mismatch: " ++ typeOf l ++ " " ++ operator ++ " " ++ typeOf r))

/-- `evalBangOperatorExpression`: an identity switch against the singletons;
anything else — fresh booleans included — falls to `FALSE`. -/
def evalBangOperatorExpression : Option Obj → Obj
  | some (.Boolean true false) => FALSE
  | some (.Boolean false false) => TRUE
  | some .Null => TRUE
  | _ => FALSE

/-- `evalMinusOperatorExpression`: negate an integer (with `int64` wrap);
otherwise an unsupported-operator error, whose message panics on nil. -/
def evalMinusOperatorExpression : Option Obj → Res
  | some (.Integer v) => .ok (.Integer (wrap64 (-v)))
  | some r => .ok (.Error ("Unsupported operator: - " ++ typeOf r))
  | none => .goPanic nilPointerPanic

/-- `evalIdentifierExpression`: the literal name `null` is special-cased to
the `NULL` singleton; otherwise an environment lookup, with an
identifier-not-found error on a miss. -/
def evalIdentifierExpression (name : String) (env : Env) : Outcome :=
  if name = "null" then .ok (some NULL) env
  else
    match envGet name env with
    | some value => .ok value env
    | none => .ok (some (.Error ("Identifier not found: " ++ name))) env

/-- The binding loop of `applyFunction`: `Set(function.Parameters[i],
arguments[i])` for each argument in order.  `none` is the index-out-of-range
panic reached when the arguments outnumber the parameters. -/
def bindArguments : List String → List (Option Obj) → Frame → Option Frame
  | _, [], frame => some frame
  | [], _ :: _, _ => none
  | p :: ps, a :: as, frame => bindArguments ps as (frameSet p a frame)

/-- The argument loop of `evalCallExpression`: either every argument's
value (in order) plus the threaded environment, or an early exit (the first
argument error, a panic, or an exhausted budget). -/
inductive ArgsOutcome where
  | ok (arguments : List (Option Obj)) (env : Env)
  | early (outcome : Outcome)

/-! ## The evaluator (`Eval` and its mutually recursive helpers)

Every function burns one unit of fuel per recursive call, so the whole
block is structural in the budget and computes by `rfl`/`decide`. -/

mutual

/-- `Eval(node, environment)`: the dispatch switch of the `evaluator`
package.  A `LetStatement` falls out of the switch after `Set`, returning
the nil interface (`none`). -/
def Eval : Nat → Node → Env → Outcome
  | 0, _, _ => .timeout
  | fuel + 1, .program statements, env => evalStatement fuel statements env
  | fuel + 1, .statement (.ExpressionStatement e), env => Eval fuel (.expression e) env
  | fuel + 1, .statement (.BlockStatement statements), env =>
      evalBlockStatement fuel statements env
  | fuel + 1, .statement (.ReturnStatement e), env =>
      match Eval fuel (.expression e) env with
      | .ok r env1 => .ok (some (.ReturnValue r)) env1
      | other => other
  | fuel + 1, .statement (.LetStatement name value), env =>
      match Eval fuel (.expression value) env with
      | .ok val env1 =>
          if isError val then .ok val env1 else .ok none (envSet name val env1)
      | other => other
  | _ + 1, .expression (.IntegerLiteral v), env => .ok (some (.Integer v)) env
  | _ + 1, .expression (.BooleanLiteral v), env =>
      .ok (some (convertNativeBooleanToObject v)) env
  | _ + 1, .expression (.StringLiteral s), env => .ok (some (.String s)) env
  | fuel + 1, .expression (.PrefixExpression op right), env =>
      evalPrefixExpression fuel op right env
  | fuel + 1, .expression (.InfixExpression l op r), env =>
      evalInfixExpression fuel l op r env
  | fuel + 1, .expression (.IfExpression c cons alt), env =>
      evalIfExpression fuel c cons alt env
  | _ + 1, .expression (.FunctionLiteral ps body), env =>
      .ok (some (.Function ps body env)) env
  | _ + 1, .expression (.Identifier name), env => evalIdentifierExpression name env
  | fuel + 1, .expression (.CallExpression f args), env =>
      evalCallExpression fuel f args env

/-- `evalStatement` (the `Program` walker): a `ReturnValue` is unwrapped and
returned immediately, an `Error` is returned as-is, and otherwise the last
statement's value is the result. -/
def evalStatement : Nat → List Stmt → Env → Outcome
  | 0, _, _ => .timeout
  | _ + 1, [], env => .ok none env
  | fuel + 1, s :: rest, env =>
      match Eval fuel (.statement s) env with
      | .ok (some (.ReturnValue v)) env1 => .ok v env1
      | .ok (some (.Error m)) env1 => .ok (some (.Error m)) env1
      | .ok r env1 =>
          match rest with
          | [] => .ok r env1
          | _ :: _ => evalStatement fuel rest env1
      | other => other

/-- `evalBlockStatement`: identical to the `Program` walker except that a
`ReturnValue` is returned still wrapped. -/
def evalBlockStatement : Nat → List Stmt → Env → Outcome
  | 0, _, _ => .timeout
  | _ + 1, [], env => .ok none env
  | fuel + 1, s :: rest, env =>
      match Eval fuel (.statement s) env with
      | .ok (some (.ReturnValue v)) env1 => .ok (some (.ReturnValue v)) env1
      | .ok (some (.Error m)) env1 => .ok (some (.Error m)) env1
      | .ok r env1 =>
          match rest with
          | [] => .ok r env1
          | _ :: _ => evalBlockStatement fuel rest env1
      | other => other

/-- `evalPrefixExpression`: evaluate the operand, propagate an error, then
dispatch on the operator. -/
def evalPrefixExpression (fuel : Nat) (operator : String) (right : Expr)
    (env : Env) : Outcome :=
  match fuel with
  | 0 => .timeout
  | fuel + 1 =>
    match Eval fuel (.expression right) env with
    | .ok r env1 =>
        if isError r then .ok r env1
        else if operator = "!" then .ok (some (evalBangOperatorExpression r)) env1
        else if operator = "-" then liftRes (evalMinusOperatorExpression r) env1
        else
          match r with
          | some rv =>
              .ok (some (.Error ("Unsupported operator: " ++ operator ++ " "
                ++ typeOf rv))) env1
          | none => .goPanic nilPointerPanic
    | other => other

/-- `evalInfixExpression`: evaluate both operands (the right one even when
the left already failed), then propagate errors, then dispatch by the left
operand's type; the default branch covers `NULL`, `RETURN_VALUE` and
`FUNCTION` left operands.  The `.Type()` calls in the default message panic
on a nil operand. -/
def evalInfixExpression (fuel : Nat) (left : Expr) (operator : String)
    (right : Expr) (env : Env) : Outcome :=
  match fuel with
  | 0 => .timeout
  | fuel + 1 =>
    match Eval fuel (.expression left) env with
    | .ok lv env1 =>
      match Eval fuel (.expression right) env1 with
      | .ok rv env2 =>
          if isError lv then .ok lv env2
          else if isError rv then .ok rv env2
          else
            match lv with
            | some (.Integer a) =>
                liftRes (evalInfixIntegerOperator operator (some (.Integer a)) rv) env2
            | some (.Boolean a f) =>
                liftRes (evalInfixBooleanOperator operator (some (.Boolean a f)) rv) env2
            | some (.String a) =>
                liftRes (evalInfixStringOperator operator (some (.String a)) rv) env2
            | some l =>
                match rv with
                | some r =>
                    .ok (some (.Error ("Unsupported operator: " ++ typeOf l ++ " "
                      ++ operator ++ " " ++ typeOf r))) env2
                | none => .goPanic nilPointerPanic
            | none => .goPanic nilPointerPanic
      | other => other
    | other => other

/-- `evalIfExpression`: the condition is compared by identity against the
`TRUE` singleton; the condition's value is never checked for `Error`, so an
error condition silently selects the alternative (or `NULL`).  The trailing
`isError(ret)` check of the source returns `ret` on both sides. -/
def evalIfExpression (fuel : Nat) (condition : Expr) (consequence : List Stmt)
    (alternative : Option (List Stmt)) (env : Env) : Outcome :=
  match fuel with
  | 0 => .timeout
  | fuel + 1 =>
    match Eval fuel (.expression condition) env with
    | .ok condv env1 =>
      match
        (match condv with
         | some (.Boolean true false) =>
             Eval fuel (.statement (.BlockStatement consequence)) env1
         | _ =>
           match alternative with
           | some alt => Eval fuel (.statement (.BlockStatement alt)) env1
           | none => .ok (some NULL) env1) with
      | .ok ret env2 => if isError ret then .ok ret env2 else .ok ret env2
      | other => other
    | other => other

/-- The argument loop of `evalCallExpression`: evaluate each argument in
order, returning the first error immediately. -/
def evalArguments : Nat → List Expr → Env → ArgsOutcome
  | 0, _, _ => .early .timeout
  | _ + 1, [], env => .ok [] env
  | fuel + 1, a :: rest, env =>
      match Eval fuel (.expression a) env with
      | .ok v env1 =>
          if isError v then .early (.ok v env1)
          else
            match evalArguments fuel rest env1 with
            | .ok vs env2 => .ok (v :: vs) env2
            | early => early
      | other => .early other

/-- `evalCallExpression`: evaluate the callee, propagate an error, evaluate
the arguments, then assert the callee to `*object.Function` — a non-function
callee panics — and apply it. -/
def evalCallExpression (fuel : Nat) (function : Expr) (arguments : List Expr)
    (env : Env) : Outcome :=
  match fuel with
  | 0 => .timeout
  | fuel + 1 =>
    match Eval fuel (.expression function) env with
    | .ok fv env1 =>
        if isError fv then .ok fv env1
        else
          match evalArguments fuel arguments env1 with
          | .early o => o
          | .ok args env2 =>
              match fv with
              | some (.Function ps body _capturedEnv) =>
                  applyFunction fuel ps body args env2
              | _ => .goPanic interfaceConversionPanic
    | other => other

/-- `applyFunction`: the enclosing frame is built over the CALLER's
environment (`NewEnclosingEnvironment(environment)`), not over the
function's captured environment, which is ignored; parameters are bound by
position, and the body's result is returned with no `ReturnValue`
unwrapping.  The callee frame's mutations cannot reach the caller's frames
(`Set` writes only the current frame), so the caller resumes with its own
environment. -/
def applyFunction (fuel : Nat) (parameters : List String) (body : List Stmt)
    (arguments : List (Option Obj)) (env : Env) : Outcome :=
  match fuel with
  | 0 => .timeout
  | fuel + 1 =>
    match bindArguments parameters arguments [] with
    | none => .goPanic indexOutOfRangePanic
    | some frame =>
      match Eval fuel (.statement (.BlockStatement body)) (frame :: env) with
      | .ok r _ => .ok r env
      | other => other

end

/-! ## Singleton discipline

`goodObj` says an object contains no freshly-allocated boolean anywhere: its
booleans (also those stored in a captured environment or under a
`ReturnValue` wrapper) are the process-wide `TRUE`/`FALSE` singletons. -/

mutual

/-- No fresh boolean allocation inside the object. -/
def goodObj : Obj → Bool
  | .Boolean _ isFresh => !isFresh
  | .ReturnValue (some v) => goodObj v
  | .Function _ _ environment => goodEnv environment
  | _ => true

/-- No fresh boolean allocation inside any frame of the chain. -/
def goodEnv : List (List (String × Option Obj)) → Bool
  | [] => true
  | frame :: outer => goodFrame frame && goodEnv outer

/-- No fresh boolean allocation inside one frame's bindings. -/
def goodFrame : List (String × Option Obj) → Bool
  | [] => true
  | (_, none) :: rest => goodFrame rest
  | (_, some v) :: rest => goodObj v && goodFrame rest

end

/-- No fresh boolean allocation in a possibly-nil object. -/
def goodOpt : Option Obj → Bool
  | none => true
  | some v => goodObj v

/-! ## Rendering and `Inspect()`

Modelled from the spec: the `ast` package's `String()` methods are not under
`src/`; the definitions below follow the spec's AST rendering contract
(§4.2), with an explicit budget so they stay total even on the shapes the
parser never builds. -/

mutual

/-- Modelled from the spec: expression rendering (§4.2). -/
def exprString : Nat → Expr → Option String
  | 0, _ => none
  | _ + 1, .Identifier v => some v
  | _ + 1, .IntegerLiteral v => some (toString v)
  | _ + 1, .BooleanLiteral b => some (if b then "true" else "false")
  | _ + 1, .StringLiteral s => some s
  | fuel + 1, .PrefixExpression op r => do
      pure ("(" ++ op ++ (← exprString fuel r) ++ ")")
  | fuel + 1, .InfixExpression l op r => do
      pure ("(" ++ (← exprString fuel l) ++ " " ++ op ++ " "
        ++ (← exprString fuel r) ++ ")")
  | fuel + 1, .IfExpression c cons alt => do
      let base := "if" ++ (← exprString fuel c) ++ " " ++ (← blockString fuel cons)
      match alt with
      | none => pure base
      | some a => pure (base ++ "else " ++ (← blockString fuel a))
  | fuel + 1, .FunctionLiteral ps body => do
      pure ("fn(" ++ String.intercalate "," ps ++ ") " ++ (← blockString fuel body))
  | fuel + 1, .CallExpression f args => do
      pure ((← exprString fuel f) ++ "(" ++ String.intercalate ", "
        (← argsString fuel args) ++ ")")

/-- Modelled from the spec: statement rendering (§4.2). -/
def stmtString : Nat → Stmt → Option String
  | 0, _ => none
  | fuel + 1, .LetStatement name value => do
      pure ("let " ++ name ++ " = " ++ (← exprString fuel value) ++ ";")
  | fuel + 1, .ReturnStatement e => do
      pure ("return " ++ (← exprString fuel e) ++ ";")
  | fuel + 1, .ExpressionStatement e => exprString fuel e
  | fuel + 1, .BlockStatement statements => blockString fuel statements

/-- Modelled from the spec: block rendering, a brace-wrapped concatenation. -/
def blockString (fuel : Nat) (statements : List Stmt) : Option String :=
  match fuel with
  | 0 => none
  | fuel + 1 => do pure ("\x7b" ++ (← stmtsString fuel statements) ++ "\x7d")

/-- Modelled from the spec: concatenation of the inner renderings. -/
def stmtsString : Nat → List Stmt → Option String
  | 0, _ => none
  | _ + 1, [] => some ""
  | fuel + 1, s :: rest => do
      pure ((← stmtString fuel s) ++ (← stmtsString fuel rest))

/-- Modelled from the spec: comma-separated call arguments. -/
def argsString : Nat → List Expr → Option (List String)
  | 0, _ => none
  | _ + 1, [] => some []
  | fuel + 1, a :: rest => do
      pure ((← exprString fuel a) :: (← argsString fuel rest))

end

/-- `Inspect()`, with an explicit recursion budget (`none` = the call never
returns).  The `ReturnValue` case is the source's own recursion: it formats
`rValue.Inspect()` — the receiver itself — rather than the inner value's
inspection. -/
def inspect : Nat → Obj → Option String
  | 0, _ => none
  | _ + 1, .Integer v => some (toString v)
  | _ + 1, .Boolean b _ => some (if b then "true" else "false")
  | _ + 1, .String s => some ("\"" ++ s ++ "\"")
  | _ + 1, .Null => some "NULL"
  | fuel + 1, .ReturnValue v => (inspect fuel (.ReturnValue v)).map ("return " ++ ·)
  | _ + 1, .Error m => some ("ERROR: " ++ m)
  | fuel + 1, .Function ps body _ => (blockString fuel body).map (fun bodyStr =>
      "fn (" ++ String.intercalate ", " ps ++ ") \x7b\n" ++ bodyStr ++ "\n\x7d")

/-! ## Concrete programs used in the theorems -/

/-- `let mk = fn(a)\x7b fn(b)\x7b a+b \x7d \x7d; mk(3)(4)` — the closure scenario of the
spec's scenario table. -/
def mkProgram : Node := .program [
  .LetStatement "mk" (.FunctionLiteral ["a"]
    [.ExpressionStatement (.FunctionLiteral ["b"]
      [.ExpressionStatement (.InfixExpression (.Identifier "a") "+" (.Identifier "b"))])]),
  .ExpressionStatement (.CallExpression
    (.CallExpression (.Identifier "mk") [.IntegerLiteral 3]) [.IntegerLiteral 4])]

/-- The call expression `fn()\x7b return 5; \x7d()`. -/
def returnFiveCall : Expr :=
  .CallExpression (.FunctionLiteral [] [.ReturnStatement (.IntegerLiteral 5)]) []

/-- `fn()\x7b return 5; \x7d() + 1` as a whole program. -/
def returnFivePlusOneProgram : Node :=
  .program [.ExpressionStatement (.InfixExpression returnFiveCall "+" (.IntegerLiteral 1))]

/-- `if (foobar) \x7b 1 \x7d else \x7b 2 \x7d` with `foobar` unbound. -/
def ifFoobarProgram : Node := .program [.ExpressionStatement
  (.IfExpression (.Identifier "foobar")
    [.ExpressionStatement (.IntegerLiteral 1)]
    (some [.ExpressionStatement (.IntegerLiteral 2)]))]

/-- `if (foobar) \x7b 1 \x7d` with `foobar` unbound and no alternative. -/
def ifFoobarNoAltProgram : Node := .program [.ExpressionStatement
  (.IfExpression (.Identifier "foobar")
    [.ExpressionStatement (.IntegerLiteral 1)] none)]

/-- `5(3)`: a call whose callee is not a function value. -/
def fiveOfThreeProgram : Node := .program
  [.ExpressionStatement (.CallExpression (.IntegerLiteral 5) [.IntegerLiteral 3])]

/-- `fn(x)\x7bx\x7d(1, 2)`: one parameter, two arguments. -/
def extraArgsProgram : Node := .program [.ExpressionStatement
  (.CallExpression (.FunctionLiteral ["x"] [.ExpressionStatement (.Identifier "x")])
    [.IntegerLiteral 1, .IntegerLiteral 2])]

/-- `1 / 0`. -/
def divByZeroProgram : Node := .program
  [.ExpressionStatement (.InfixExpression (.IntegerLiteral 1) "/" (.IntegerLiteral 0))]

/-- `let f = fn(x)\x7b x(x) \x7d; f(f)`: self-application, which recurses without
bound. -/
def selfApplyProgram : Node := .program [
  .LetStatement "f" (.FunctionLiteral ["x"]
    [.ExpressionStatement (.CallExpression (.Identifier "x") [.Identifier "x"])]),
  .ExpressionStatement (.CallExpression (.Identifier "f") [.Identifier "f"])]

/-- `if (10 > 1) \x7b if (10 > 1) \x7b return 1; \x7d return 10; \x7d` — the nested-return
scenario. -/
def nestedReturnProgram : Node := .program [.ExpressionStatement
  (.IfExpression (.InfixExpression (.IntegerLiteral 10) ">" (.IntegerLiteral 1))
    [.ExpressionStatement
      (.IfExpression (.InfixExpression (.IntegerLiteral 10) ">" (.IntegerLiteral 1))
        [.ReturnStatement (.IntegerLiteral 1)] none),
     .ReturnStatement (.IntegerLiteral 10)] none)]

/-- `null + 1`: a type-mismatched infix whose left operand is `NULL`. -/
def nullPlusOneProgram : Node := .program
  [.ExpressionStatement (.InfixExpression (.Identifier "null") "+" (.IntegerLiteral 1))]

/-! ## C1 — closure semantics -/

/-- C1: the claim says a call's fresh environment encloses the environment
captured by the `Function` at its definition, so that `let mk = fn(a)\x7b
fn(b)\x7b a+b \x7d \x7d; mk(3)(4)` evaluates to Integer 7.  The code violates
this: `applyFunction` encloses the CALLER's environment
(`object.NewEnclosingEnvironment(environment)`) and never reads
`function.Environment`, so the inner function's free variable `a` is not in
scope at the second call and the program evaluates to the runtime error
`Identifier not found: a`, not Integer 7. -/
theorem claimC1_closure_lookup_fails :
    (Eval 50 mkProgram NewEnvironment).result?
        = some (some (.Error "Identifier not found: a"))
    ∧ Obj.Error "Identifier not found: a" ≠ Obj.Integer 7 := by
  exact ⟨rfl, by simp⟩

/-! ## C3 — `ReturnValue` unwrapping at the call boundary -/

/-- C3: the claim says a top-level `ReturnValue` from the body is unwrapped
before the call returns.  The code never unwraps at the call boundary:
`applyFunction` returns the block's result as-is, so the call expression
`fn()\x7b return 5; \x7d()` evaluates to the still-wrapped `ReturnValue(5)`; the
wrapper is observable (`fn()\x7b return 5; \x7d() + 1` is an unsupported-operator
error on `RETURN_VALUE`), and only the `Program`-level walker unwraps it,
which is why the claim's own example still prints 5 as a whole program. -/
theorem claimC3_call_keeps_wrapper :
    Eval 50 (.expression returnFiveCall) NewEnvironment
        = .ok (some (.ReturnValue (some (.Integer 5)))) NewEnvironment
    ∧ (Eval 50 returnFivePlusOneProgram NewEnvironment).result?
        = some (some (.Error "Unsupported operator: RETURN_VALUE + INTEGER"))
    ∧ (Eval 50 (.program [.ExpressionStatement returnFiveCall]) NewEnvironment).result?
        = some (some (.Integer 5)) := by
  exact ⟨rfl, rfl, rfl⟩

/-! ## C4 — error propagation out of an if-condition -/

/-- C4: the claim says an `Error` in an if-expression's condition is the
result of the if-expression, with neither branch evaluated.  The code never
checks the condition for `Error`: the error object is merely not identical
to `TRUE`, so the alternative is evaluated (or `NULL` returned).  With
`foobar` unbound, the condition alone evaluates to `Identifier not found:
foobar`, yet `if (foobar) \x7b 1 \x7d else \x7b 2 \x7d` evaluates to Integer 2 and
`if (foobar) \x7b 1 \x7d` to `NULL`. -/
theorem claimC4_if_swallows_condition_error :
    (Eval 50 (.expression (.Identifier "foobar")) NewEnvironment).result?
        = some (some (.Error "Identifier not found: foobar"))
    ∧ (Eval 50 ifFoobarProgram NewEnvironment).result? = some (some (.Integer 2))
    ∧ (Eval 50 ifFoobarNoAltProgram NewEnvironment).result? = some (some NULL) := by
  exact ⟨rfl, rfl, rfl⟩

/-! ## C9 — environment lookup and insertion -/

/-- C9: `Get` returns the innermost binding with a hit flag, cascading
outward on a miss, and reports a miss exactly when no frame in the chain
binds the name; `Set` writes only the current frame — replacing an existing
entry or adding one — and leaves every outer frame untouched. -/
theorem claimC9_environment_get_and_set :
    (∀ name frame outer v, frameGet name frame = some v →
        envGet name (frame :: outer) = some v)
    ∧ (∀ name frame outer, frameGet name frame = none →
        envGet name (frame :: outer) = envGet name outer)
    ∧ (∀ name env, envGet name env = none ↔ ∀ frame ∈ env, frameGet name frame = none)
    ∧ (∀ name value frame outer,
        envSet name value (frame :: outer) = frameSet name value frame :: outer)
    ∧ (∀ name value frame, frameGet name (frameSet name value frame) = some value)
    ∧ (∀ name other value frame, other ≠ name →
        frameGet other (frameSet name value frame) = frameGet other frame) := by
  refine ⟨?_, ?_, ?_, ?_, ?_, ?_⟩
  · intro name frame outer v h
    simp [envGet, h]
  · intro name frame outer h
    simp [envGet, h]
  · intro name env
    induction env with
    | nil => simp [envGet]
    | cons frame outer ih =>
      constructor
      · intro h
        cases hf : frameGet name frame with
        | some v => simp [envGet, hf] at h
        | none =>
          simp only [envGet, hf] at h
          intro f hmem
          rcases List.mem_cons.mp hmem with hEq | hmem'
          · exact hEq ▸ hf
          · exact (ih.mp h) f hmem'
      · intro h
        have hf : frameGet name frame = none := h frame (List.mem_cons_self _ _)
        simp only [envGet, hf]
        exact ih.mpr (fun f hmem => h f (List.mem_cons_of_mem _ hmem))
  · intro name value frame outer
    rfl
  · intro name value frame
    induction frame with
    | nil => simp [frameSet, frameGet]
    | cons kv rest ih =>
      obtain ⟨k, v⟩ := kv
      by_cases hk : k = name
      · subst hk
        simp [frameSet, frameGet]
      · simp [frameSet, frameGet, hk, ih]
  · intro name other value frame hne
    induction frame with
    | nil => simp [frameSet, frameGet, Ne.symm hne]
    | cons kv rest ih =>
      obtain ⟨k, v⟩ := kv
      by_cases hk : k = name
      · subst hk
        simp [frameSet, frameGet, Ne.symm hne]
      · simp [frameSet, frameGet, hk, ih]

/-- Witness for C9 at concrete frames. -/
theorem claimC9_witness :
    envGet "x" [[("x", some TRUE)], [("x", some FALSE)]] = some (some TRUE)
    ∧ envGet "y" [[("x", some TRUE)], [("y", some FALSE)]] = some (some FALSE)
    ∧ (envGet "z" [[("x", some TRUE)], [("y", some FALSE)]] = none ↔
        ∀ frame ∈ [[("x", some TRUE)], [("y", some FALSE)]], frameGet "z" frame = none)
    ∧ envSet "x" (some NULL) [[("x", some TRUE)], [("x", some FALSE)]]
        = [frameSet "x" (some NULL) [("x", some TRUE)], [("x", some FALSE)]]
    ∧ frameGet "x" (frameSet "x" (some NULL) [("x", some TRUE)]) = some (some NULL)
    ∧ frameGet "y" (frameSet "x" (some NULL) [("y", some FALSE)]) = some (some FALSE) := by
  refine ⟨?_, ?_, ?_, ?_, ?_, ?_⟩
  · exact claimC9_environment_get_and_set.1 "x" _ _ _ rfl
  · exact (claimC9_environment_get_and_set.2.1 "y" [("x", some TRUE)]
      [[("y", some FALSE)]] rfl).trans rfl
  · exact claimC9_environment_get_and_set.2.2.1 "z" _
  · exact claimC9_environment_get_and_set.2.2.2.1 "x" (some NULL) _ _
  · exact claimC9_environment_get_and_set.2.2.2.2.1 "x" (some NULL) _
  · exact claimC9_environment_get_and_set.2.2.2.2.2 "x" "y" (some NULL) _ (by decide)

/-! ## C10 — `ReturnValue.Inspect` -/

/-- C10: the claim says `ReturnValue.Inspect()` terminates and returns a
string.  The source's `ReturnValue.Inspect` formats `rValue.Inspect()` —
the receiver itself, not `rValue.Value.Inspect()` — so the call recurses on
itself forever: under every finite budget it fails to return. -/
theorem claimC10_returnValue_inspect_diverges :
    ∀ fuel v, inspect fuel (.ReturnValue v) = none := by
  intro fuel
  induction fuel with
  | zero => intro v; rfl
  | succ fuel ih => intro v; simp [inspect, ih v]

/-! ## C5 — the two statement walkers -/

/-- C5: the `Program` walker stops at the first statement yielding a
`ReturnValue` and returns the unwrapped inner object, stops at the first
`Error` returning it as-is, and otherwise the last statement's value is the
result; `evalBlockStatement` is identical except that a `ReturnValue` is
returned still wrapped, which is what lets `if (10 > 1) \x7b if (10 > 1) \x7b
return 1; \x7d return 10; \x7d` evaluate to Integer 1. -/
theorem claimC5_statement_walkers :
    (∀ fuel s rest env v env1,
        Eval fuel (.statement s) env = .ok (some (.ReturnValue v)) env1 →
        evalStatement (fuel + 1) (s :: rest) env = .ok v env1)
    ∧ (∀ fuel s rest env m env1,
        Eval fuel (.statement s) env = .ok (some (.Error m)) env1 →
        evalStatement (fuel + 1) (s :: rest) env = .ok (some (.Error m)) env1)
    ∧ (∀ fuel s rest env v env1,
        Eval fuel (.statement s) env = .ok (some (.ReturnValue v)) env1 →
        evalBlockStatement (fuel + 1) (s :: rest) env
          = .ok (some (.ReturnValue v)) env1)
    ∧ (∀ fuel s rest env m env1,
        Eval fuel (.statement s) env = .ok (some (.Error m)) env1 →
        evalBlockStatement (fuel + 1) (s :: rest) env = .ok (some (.Error m)) env1)
    ∧ (∀ fuel s env r env1,
        Eval fuel (.statement s) env = .ok r env1 →
        (∀ v, r ≠ some (.ReturnValue v)) → (∀ m, r ≠ some (.Error m)) →
        evalStatement (fuel + 1) [s] env = .ok r env1
          ∧ evalBlockStatement (fuel + 1) [s] env = .ok r env1)
    ∧ (∀ fuel s s2 rest env r env1,
        Eval fuel (.statement s) env = .ok r env1 →
        (∀ v, r ≠ some (.ReturnValue v)) → (∀ m, r ≠ some (.Error m)) →
        evalStatement (fuel + 1) (s :: s2 :: rest) env
            = evalStatement fuel (s2 :: rest) env1
          ∧ evalBlockStatement (fuel + 1) (s :: s2 :: rest) env
            = evalBlockStatement fuel (s2 :: rest) env1)
    ∧ (Eval 50 nestedReturnProgram NewEnvironment).result? = some (some (.Integer 1)) := by
  refine ⟨?_, ?_, ?_, ?_, ?_, ?_, rfl⟩
  · intro fuel s rest env v env1 h
    simp [evalStatement, h]
  · intro fuel s rest env m env1 h
    simp [evalStatement, h]
  · intro fuel s rest env v env1 h
    simp [evalBlockStatement, h]
  · intro fuel s rest env m env1 h
    simp [evalBlockStatement, h]
  · intro fuel s env r env1 h hrv herr
    rcases r with _ | obj
    · constructor <;> simp [evalStatement, evalBlockStatement, h]
    · cases obj with
      | ReturnValue v => exact absurd rfl (hrv v)
      | Error m => exact absurd rfl (herr m)
      | _ => constructor <;> simp [evalStatement, evalBlockStatement, h]
  · intro fuel s s2 rest env r env1 h hrv herr
    rcases r with _ | obj
    · constructor <;> simp [evalStatement, evalBlockStatement, h]
    · cases obj with
      | ReturnValue v => exact absurd rfl (hrv v)
      | Error m => exact absurd rfl (herr m)
      | _ => constructor <;> simp [evalStatement, evalBlockStatement, h]

/-- Witness for C5: a `return 5;` in front of further statements is
unwrapped by the `Program` walker and left wrapped by the block walker; a
plain statement's value survives as the last statement's result. -/
theorem claimC5_witness :
    evalStatement 11
        [.ReturnStatement (.IntegerLiteral 5), .ExpressionStatement (.IntegerLiteral 9)]
        NewEnvironment = .ok (some (.Integer 5)) NewEnvironment
    ∧ evalBlockStatement 11
        [.ReturnStatement (.IntegerLiteral 5), .ExpressionStatement (.IntegerLiteral 9)]
        NewEnvironment = .ok (some (.ReturnValue (some (.Integer 5)))) NewEnvironment
    ∧ evalStatement 11 [.ExpressionStatement (.IntegerLiteral 9)] NewEnvironment
        = .ok (some (.Integer 9)) NewEnvironment := by
  refine ⟨?_, ?_, ?_⟩
  · exact claimC5_statement_walkers.1 10 _ _ _ _ _ rfl
  · exact claimC5_statement_walkers.2.2.1 10 _ _ _ _ _ rfl
  · exact (claimC5_statement_walkers.2.2.2.2.1 10 (.ExpressionStatement (.IntegerLiteral 9))
      NewEnvironment (some (.Integer 9)) NewEnvironment rfl (by simp) (by simp)).1

/-! ## C6 — infix type-mismatch messages -/

/-- C6 counterexample: with a `NULL` left operand the message is
`Unsupported operator: …`, not the claimed `Type mismatch: …`. -/
theorem claimC6_counterexample :
    (Eval 50 nullPlusOneProgram NewEnvironment).result?
        = some (some (.Error "Unsupported operator: NULL + INTEGER"))
    ∧ "Unsupported operator: NULL + INTEGER" ≠ "Type mismatch: NULL + INTEGER" := by
  exact ⟨rfl, by decide⟩

/-- C6 as amended: when both operands evaluate without error to objects of
different type tags, an INTEGER, BOOLEAN or STRING left operand yields
`Type mismatch: <LTYPE> <op> <RTYPE>`, but a left operand outside the
dispatch switch (`NULL`, `RETURN_VALUE`, `FUNCTION`) yields
`Unsupported operator: <LTYPE> <op> <RTYPE>`. -/
theorem claimC6_amended :
    (∀ fuel lE op rE env, Eval (fuel + 1) (.expression (.InfixExpression lE op rE)) env
        = evalInfixExpression fuel lE op rE env)
    ∧ (∀ fuel lE op rE env l env1 r env2,
        Eval fuel (.expression lE) env = .ok (some l) env1 →
        Eval fuel (.expression rE) env1 = .ok (some r) env2 →
        typeOf l ≠ typeOf r →
        (∀ m, l ≠ .Error m) → (∀ m, r ≠ .Error m) →
        evalInfixExpression (fuel + 1) lE op rE env
          = .ok (some (.Error
              ((if typeOf l = "INTEGER" ∨ typeOf l = "BOOLEAN" ∨ typeOf l = "STRING"
                then "Type mismatch: " else "Unsupported operator: ")
               ++ typeOf l ++ " " ++ op ++ " " ++ typeOf r))) env2) := by
  constructor
  · intro fuel lE op rE env
    rfl
  · intro fuel lE op rE env l env1 r env2 h1 h2 hty hl hr
    have hle : isError (some l) = false := by
      cases l
      all_goals first | rfl | exact absurd rfl (hl _)
    have hre : isError (some r) = false := by
      cases r
      all_goals first | rfl | exact absurd rfl (hr _)
    cases l with
    | Error m => exact absurd rfl (hl m)
    | Integer a =>
        cases r <;>
          simp_all [evalInfixExpression, evalInfixIntegerOperator, liftRes, typeOf]
    | Boolean a f =>
        cases r <;>
          simp_all [evalInfixExpression, evalInfixBooleanOperator, liftRes, typeOf]
    | String a =>
        cases r <;>
          simp_all [evalInfixExpression, evalInfixStringOperator, liftRes, typeOf]
    | Null => simp_all [evalInfixExpression, typeOf]
    | ReturnValue v => simp_all [evalInfixExpression, typeOf]
    | Function ps body cenv => simp_all [evalInfixExpression, typeOf]

/-- Witness for C6: `true + 1` is a type mismatch, `null + 1` an
unsupported operator. -/
theorem claimC6_witness :
    evalInfixExpression 6 (.BooleanLiteral true) "+" (.IntegerLiteral 1) NewEnvironment
        = .ok (some (.Error "Type mismatch: BOOLEAN + INTEGER")) NewEnvironment
    ∧ evalInfixExpression 6 (.Identifier "null") "+" (.IntegerLiteral 1) NewEnvironment
        = .ok (some (.Error "Unsupported operator: NULL + INTEGER")) NewEnvironment := by
  constructor
  · exact (claimC6_amended.2 5 (.BooleanLiteral true) "+" (.IntegerLiteral 1)
      NewEnvironment (.Boolean true false) NewEnvironment (.Integer 1) NewEnvironment
      rfl rfl (by decide) (by simp) (by simp)).trans rfl
  · exact (claimC6_amended.2 5 (.Identifier "null") "+" (.IntegerLiteral 1)
      NewEnvironment .Null NewEnvironment (.Integer 1) NewEnvironment
      rfl rfl (by decide) (by simp) (by simp)).trans rfl

/-! ## C7 — integer infix operators -/

/-- C7 counterexample: both operands of `1 / 0` evaluate to Integers, yet
`/` does not return an Integer — the evaluation panics. -/
theorem claimC7_counterexample :
    Eval 50 divByZeroProgram NewEnvironment = .goPanic divideByZeroPanic
    ∧ (Eval 50 divByZeroProgram NewEnvironment).result? = none := by
  exact ⟨rfl, rfl⟩

/-- C7 as amended: on two Integer operands, `+ - *` return the Integer with
Go `int64` (two's-complement) semantics, `/` does so too — truncating
toward zero — provided the right operand is nonzero, and panics on a zero
right operand; the relational operators return the `TRUE`/`FALSE`
singleton of the exact comparison.  `wrap64` is the identity on results
within `int64` range, so in-range arithmetic is exact. -/
theorem claimC7_amended :
    (∀ fuel lE op rE env a env1 b env2,
      Eval fuel (.expression lE) env = .ok (some (.Integer a)) env1 →
      Eval fuel (.expression rE) env1 = .ok (some (.Integer b)) env2 →
      (op = "+" → evalInfixExpression (fuel + 1) lE op rE env
          = .ok (some (.Integer (wrap64 (a + b)))) env2)
      ∧ (op = "-" → evalInfixExpression (fuel + 1) lE op rE env
          = .ok (some (.Integer (wrap64 (a - b)))) env2)
      ∧ (op = "*" → evalInfixExpression (fuel + 1) lE op rE env
          = .ok (some (.Integer (wrap64 (a * b)))) env2)
      ∧ (op = "/" → b ≠ 0 → evalInfixExpression (fuel + 1) lE op rE env
          = .ok (some (.Integer (wrap64 (Int.tdiv a b)))) env2)
      ∧ (op = "/" → b = 0 → evalInfixExpression (fuel + 1) lE op rE env
          = .goPanic divideByZeroPanic)
      ∧ (op = "<" → evalInfixExpression (fuel + 1) lE op rE env
          = .ok (some (if a < b then TRUE else FALSE)) env2)
      ∧ (op = "<=" → evalInfixExpression (fuel + 1) lE op rE env
          = .ok (some (if a ≤ b then TRUE else FALSE)) env2)
      ∧ (op = ">" → evalInfixExpression (fuel + 1) lE op rE env
          = .ok (some (if b < a then TRUE else FALSE)) env2)
      ∧ (op = ">=" → evalInfixExpression (fuel + 1) lE op rE env
          = .ok (some (if b ≤ a then TRUE else FALSE)) env2)
      ∧ (op = "==" → evalInfixExpression (fuel + 1) lE op rE env
          = .ok (some (if a = b then TRUE else FALSE)) env2)
      ∧ (op = "!=" → evalInfixExpression (fuel + 1) lE op rE env
          = .ok (some (if a = b then FALSE else TRUE)) env2))
    ∧ (∀ x : Int, -(2 ^ 63) ≤ x → x < 2 ^ 63 → wrap64 x = x) := by
  constructor
  · intro fuel lE op rE env a env1 b env2 h1 h2
    refine ⟨?_, ?_, ?_, ?_, ?_, ?_, ?_, ?_, ?_, ?_, ?_⟩
    · intro hop
      subst hop
      simp [evalInfixExpression, h1, h2, isError, evalInfixIntegerOperator, liftRes]
    · intro hop
      subst hop
      simp [evalInfixExpression, h1, h2, isError, evalInfixIntegerOperator, liftRes]
    · intro hop
      subst hop
      simp [evalInfixExpression, h1, h2, isError, evalInfixIntegerOperator, liftRes]
    · intro hop hb
      subst hop
      simp [evalInfixExpression, h1, h2, isError, evalInfixIntegerOperator, liftRes, hb]
    · intro hop hb
      subst hop
      subst hb
      simp [evalInfixExpression, h1, h2, isError, evalInfixIntegerOperator, liftRes]
    · intro hop
      subst hop
      simp [evalInfixExpression, h1, h2, isError, evalInfixIntegerOperator, liftRes,
        convertNativeBooleanToObject]
    · intro hop
      subst hop
      simp [evalInfixExpression, h1, h2, isError, evalInfixIntegerOperator, liftRes,
        convertNativeBooleanToObject]
    · intro hop
      subst hop
      simp [evalInfixExpression, h1, h2, isError, evalInfixIntegerOperator, liftRes,
        convertNativeBooleanToObject]
    · intro hop
      subst hop
      simp [evalInfixExpression, h1, h2, isError, evalInfixIntegerOperator, liftRes,
        convertNativeBooleanToObject]
    · intro hop
      subst hop
      simp [evalInfixExpression, h1, h2, isError, evalInfixIntegerOperator, liftRes,
        convertNativeBooleanToObject]
    · intro hop
      subst hop
      simp [evalInfixExpression, h1, h2, isError, evalInfixIntegerOperator, liftRes,
        convertNativeBooleanToObject, ite_not]
  · intro x hlow hhigh
    have h63 : (2 : Int) ^ 63 = 9223372036854775808 := by norm_num
    have h64 : (2 : Int) ^ 64 = 18446744073709551616 := by norm_num
    unfold wrap64
    rw [Int.emod_eq_of_lt (by omega) (by omega)]
    omega

/-- Witness for C7 at `9 op 2` (and `9 / 0`). -/
theorem claimC7_witness :
    evalInfixExpression 6 (.IntegerLiteral 9) "+" (.IntegerLiteral 2) NewEnvironment
        = .ok (some (.Integer 11)) NewEnvironment
    ∧ evalInfixExpression 6 (.IntegerLiteral 9) "/" (.IntegerLiteral 2) NewEnvironment
        = .ok (some (.Integer 4)) NewEnvironment
    ∧ evalInfixExpression 6 (.IntegerLiteral 9) "/" (.IntegerLiteral 0) NewEnvironment
        = .goPanic divideByZeroPanic
    ∧ evalInfixExpression 6 (.IntegerLiteral 9) "<" (.IntegerLiteral 2) NewEnvironment
        = .ok (some FALSE) NewEnvironment := by
  refine ⟨?_, ?_, ?_, ?_⟩
  · exact ((claimC7_amended.1 5 (.IntegerLiteral 9) "+" (.IntegerLiteral 2)
      NewEnvironment 9 NewEnvironment 2 NewEnvironment rfl rfl).1 rfl).trans
      (by norm_num [wrap64])
  · exact ((claimC7_amended.1 5 (.IntegerLiteral 9) "/" (.IntegerLiteral 2)
      NewEnvironment 9 NewEnvironment 2 NewEnvironment rfl rfl).2.2.2.1 rfl
      (by norm_num)).trans (by norm_num [wrap64, Int.tdiv])
  · exact (claimC7_amended.1 5 (.IntegerLiteral 9) "/" (.IntegerLiteral 0)
      NewEnvironment 9 NewEnvironment 0 NewEnvironment rfl rfl).2.2.2.2.1 rfl rfl
  · exact ((claimC7_amended.1 5 (.IntegerLiteral 9) "<" (.IntegerLiteral 2)
      NewEnvironment 9 NewEnvironment 2 NewEnvironment rfl rfl).2.2.2.2.2.1 rfl).trans
      (by norm_num)

/-! ## C2 — totality of evaluation -/

/-- C2 counterexample: evaluating `5(3)` does not return an Object — the
`.(*object.Function)` type assertion panics; a call with more arguments
than parameters panics on the parameter index. -/
theorem claimC2_counterexample :
    Eval 50 fiveOfThreeProgram NewEnvironment = .goPanic interfaceConversionPanic
    ∧ Eval 50 extraArgsProgram NewEnvironment = .goPanic indexOutOfRangePanic := by
  exact ⟨rfl, rfl⟩

/-! ## The evaluation invariant

Two facts proved together over the whole mutual block: a panic can only
carry one of the four reasons the source can raise, and evaluation started
from an environment free of fresh booleans only ever returns objects and
environments free of fresh booleans. -/

/-- The four runtime panics of the evaluator. -/
def PanicReason (s : String) : Prop :=
  s = interfaceConversionPanic ∨ s = indexOutOfRangePanic
    ∨ s = divideByZeroPanic ∨ s = nilPointerPanic

/-- Invariant of an outcome, relative to the starting environment. -/
def OutcomeInv (env0 : Env) : Outcome → Prop
  | .ok r env1 => goodEnv env0 = true → goodOpt r = true ∧ goodEnv env1 = true
  | .goPanic s => PanicReason s
  | .timeout => True

/-- Invariant of an operator helper's result. -/
def ResInv : Res → Prop
  | .ok v => goodObj v = true
  | .goPanic s => PanicReason s

/-- Invariant of the argument loop's result. -/
def ArgsInv (env0 : Env) : ArgsOutcome → Prop
  | .ok vs env1 => goodEnv env0 = true →
      (∀ v ∈ vs, goodOpt v = true) ∧ goodEnv env1 = true
  | .early o => OutcomeInv env0 o

theorem outcomeInv_timeout (env0 : Env) : OutcomeInv env0 .timeout := trivial

theorem outcomeInv_mono {env0 env1 : Env} {o : Outcome}
    (h : OutcomeInv env1 o) (himp : goodEnv env0 = true → goodEnv env1 = true) :
    OutcomeInv env0 o := by
  cases o with
  | ok r env2 => exact fun hg => h (himp hg)
  | goPanic s => exact h
  | timeout => trivial

theorem argsInv_mono {env0 env1 : Env} {a : ArgsOutcome}
    (h : ArgsInv env1 a) (himp : goodEnv env0 = true → goodEnv env1 = true) :
    ArgsInv env0 a := by
  cases a with
  | ok vs env2 => exact fun hg => h (himp hg)
  | early o => exact outcomeInv_mono h himp

theorem liftRes_inv {env0 env1 : Env} {r : Res}
    (h : ResInv r) (henv : goodEnv env0 = true → goodEnv env1 = true) :
    OutcomeInv env0 (liftRes r env1) := by
  cases r with
  | ok v => exact fun hg => ⟨h, henv hg⟩
  | goPanic s => exact h

/-! Goodness facts about the environment operations. -/

theorem goodFrame_cons (k : String) (v : Option Obj) (rest : Frame) :
    goodFrame ((k, v) :: rest) = (goodOpt v && goodFrame rest) := by
  cases v <;> simp [goodFrame, goodOpt]

theorem goodEnv_cons (frame : Frame) (outer : Env) :
    goodEnv (frame :: outer) = (goodFrame frame && goodEnv outer) := by
  simp [goodEnv]

theorem panicReason_interface : PanicReason interfaceConversionPanic := Or.inl rfl

theorem panicReason_index : PanicReason indexOutOfRangePanic := Or.inr (Or.inl rfl)

theorem panicReason_div : PanicReason divideByZeroPanic := Or.inr (Or.inr (Or.inl rfl))

theorem panicReason_nil : PanicReason nilPointerPanic := Or.inr (Or.inr (Or.inr rfl))

theorem goodFrame_frameSet (name : String) (v : Option Obj) (hv : goodOpt v = true) :
    ∀ frame, goodFrame frame = true → goodFrame (frameSet name v frame) = true := by
  intro frame
  induction frame with
  | nil =>
    intro _
    simp only [frameSet]
    rw [goodFrame_cons]
    simp [hv, goodFrame]
  | cons kv rest ih =>
    obtain ⟨k, w⟩ := kv
    intro hf
    rw [goodFrame_cons, Bool.and_eq_true] at hf
    simp only [frameSet]
    split
    · rw [goodFrame_cons]
      simp [hv, hf.2]
    · rw [goodFrame_cons]
      simp [hf.1, ih hf.2]

theorem goodEnv_envSet (name : String) (v : Option Obj) (hv : goodOpt v = true) :
    ∀ env, goodEnv env = true → goodEnv (envSet name v env) = true := by
  intro env he
  cases env with
  | nil => simpa [envSet] using he
  | cons frame outer =>
    rw [goodEnv_cons, Bool.and_eq_true] at he
    simp [envSet, goodEnv_cons, goodFrame_frameSet name v hv frame he.1, he.2]

theorem goodOpt_frameGet {v : Option Obj} {name : String} :
    ∀ frame, goodFrame frame = true → frameGet name frame = some v →
      goodOpt v = true := by
  intro frame
  induction frame with
  | nil => intro _ h; cases h
  | cons kv rest ih =>
    obtain ⟨k, w⟩ := kv
    intro hf h
    rw [goodFrame_cons, Bool.and_eq_true] at hf
    simp only [frameGet] at h
    split at h
    · cases h
      exact hf.1
    · exact ih hf.2 h

theorem goodOpt_envGet {v : Option Obj} {name : String} :
    ∀ env, goodEnv env = true → envGet name env = some v → goodOpt v = true := by
  intro env
  induction env with
  | nil => intro _ h; cases h
  | cons frame outer ih =>
    intro he h
    rw [goodEnv_cons, Bool.and_eq_true] at he
    simp only [envGet] at h
    split at h
    · cases h
      exact goodOpt_frameGet frame he.1 (by assumption)
    · exact ih he.2 h

theorem goodFrame_bindArguments {args : List (Option Obj)} :
    ∀ (ps : List String) (frame frame1 : Frame), goodFrame frame = true →
      (∀ a ∈ args, goodOpt a = true) →
      bindArguments ps args frame = some frame1 → goodFrame frame1 = true := by
  induction args with
  | nil =>
    intro ps frame frame1 hf _ h
    cases ps <;> simp only [bindArguments, Option.some.injEq] at h <;> exact h ▸ hf
  | cons a as ih =>
    intro ps frame frame1 hf hargs h
    cases ps with
    | nil => cases h
    | cons p ps =>
      simp only [bindArguments] at h
      exact ih ps (frameSet p a frame) frame1
        (goodFrame_frameSet p a (hargs a (by simp)) frame hf)
        (fun b hb => hargs b (by simp [hb])) h

/-! Goodness and panic classification of the operator helpers. -/

theorem goodObj_convert (b : Bool) :
    goodObj (convertNativeBooleanToObject b) = true := by
  cases b <;> simp [convertNativeBooleanToObject, TRUE, FALSE, goodObj]

theorem goodObj_bang (r : Option Obj) :
    goodObj (evalBangOperatorExpression r) = true := by
  unfold evalBangOperatorExpression
  split <;> simp [TRUE, FALSE, goodObj]

set_option maxHeartbeats 1000000 in
theorem resInv_integerOperator (op : String) (l r : Option Obj) :
    ResInv (evalInfixIntegerOperator op l r) := by
  rcases l with _ | l
  · simp [evalInfixIntegerOperator, ResInv, panicReason_nil]
  rcases r with _ | r
  · cases l <;> simp [evalInfixIntegerOperator, ResInv, panicReason_nil, goodObj]
  cases l
  case Integer a =>
    cases r
    case Integer b =>
      simp only [evalInfixIntegerOperator]
      split_ifs <;>
        simp [ResInv, goodObj, goodObj_convert, panicReason_div]
    all_goals simp [evalInfixIntegerOperator, ResInv, goodObj]
  all_goals cases r <;> simp [evalInfixIntegerOperator, ResInv, goodObj]

set_option maxHeartbeats 1000000 in
theorem resInv_booleanOperator (op : String) (l r : Option Obj) :
    ResInv (evalInfixBooleanOperator op l r) := by
  rcases l with _ | l
  · simp [evalInfixBooleanOperator, ResInv, panicReason_nil]
  rcases r with _ | r
  · cases l <;> simp [evalInfixBooleanOperator, ResInv, panicReason_nil, goodObj]
  cases l
  case Boolean a f =>
    cases r
    case Boolean b g =>
      simp only [evalInfixBooleanOperator]
      split_ifs <;> simp [ResInv, goodObj, goodObj_convert]
    all_goals simp [evalInfixBooleanOperator, ResInv, goodObj]
  all_goals cases r <;> simp [evalInfixBooleanOperator, ResInv, goodObj]

set_option maxHeartbeats 1000000 in
theorem resInv_stringOperator (op : String) (l r : Option Obj) :
    ResInv (evalInfixStringOperator op l r) := by
  rcases l with _ | l
  · simp [evalInfixStringOperator, ResInv, panicReason_nil]
  rcases r with _ | r
  · cases l <;> simp [evalInfixStringOperator, ResInv, panicReason_nil, goodObj]
  cases l
  case String a =>
    cases r
    case String b =>
      simp only [evalInfixStringOperator]
      split_ifs <;> simp [ResInv, goodObj]
    all_goals simp [evalInfixStringOperator, ResInv, goodObj]
  all_goals cases r <;> simp [evalInfixStringOperator, ResInv, goodObj]

theorem resInv_minusOperator (r : Option Obj) :
    ResInv (evalMinusOperatorExpression r) := by
  rcases r with _ | r
  · simp [evalMinusOperatorExpression, ResInv, panicReason_nil]
  · cases r <;> simp [evalMinusOperatorExpression, ResInv, goodObj]

theorem outcomeInv_identifier (name : String) (env : Env) :
    OutcomeInv env (evalIdentifierExpression name env) := by
  unfold evalIdentifierExpression
  split_ifs
  · exact fun hg => ⟨by simp [goodOpt, NULL, goodObj], hg⟩
  · cases h : envGet name env with
    | some v => exact fun hg => ⟨goodOpt_envGet env hg h, hg⟩
    | none => exact fun hg => ⟨by simp [goodOpt, goodObj], hg⟩

theorem goodOpt_some (v : Obj) : goodOpt (some v) = goodObj v := rfl

theorem goodObj_returnValue (r : Option Obj) :
    goodObj (.ReturnValue r) = goodOpt r := by
  cases r <;> simp [goodObj, goodOpt]

theorem goodObj_function (ps : List String) (body : List Stmt) (env : Env) :
    goodObj (.Function ps body env) = goodEnv env := by
  simp [goodObj]

theorem goodFrame_nil : goodFrame [] = true := by simp [goodFrame]

/-- Invariant of the branch an if-expression selects from its condition
value (the consequence on the `TRUE` singleton, otherwise the alternative
or `NULL`). -/
theorem ifBranchInv (fuel : Nat)
    (ihEval : ∀ node env, OutcomeInv env (Eval fuel node env))
    (condv : Option Obj) (cons : List Stmt) (alt : Option (List Stmt)) (env1 : Env) :
    OutcomeInv env1
      (match condv with
       | some (.Boolean true false) =>
           Eval fuel (.statement (.BlockStatement cons)) env1
       | _ =>
         match alt with
         | some a => Eval fuel (.statement (.BlockStatement a)) env1
         | none => .ok (some NULL) env1) := by
  have helse : OutcomeInv env1
      (match alt with
       | some a => Eval fuel (.statement (.BlockStatement a)) env1
       | none => .ok (some NULL) env1) := by
    cases alt with
    | some a => exact ihEval (.statement (.BlockStatement a)) env1
    | none => exact fun hg => ⟨by simp [goodOpt, NULL, goodObj], hg⟩
  rcases condv with _ | cobj
  · exact helse
  · cases cobj
    case Boolean b f =>
      cases b
      · cases f <;> exact helse
      · cases f
        · exact ihEval (.statement (.BlockStatement cons)) env1
        · exact helse
    all_goals exact helse

theorem outcomeInv_ite {env0 : Env} {c : Prop} [Decidable c] {a b : Outcome}
    (ha : c → OutcomeInv env0 a) (hb : ¬c → OutcomeInv env0 b) :
    OutcomeInv env0 (if c then a else b) := by
  split_ifs with h
  · exact ha h
  · exact hb h

theorem ifOutcomeInv {env env1 : Env} :
    ∀ o : Outcome, OutcomeInv env1 o →
    (goodEnv env = true → goodEnv env1 = true) →
    OutcomeInv env
      (match o with
       | .ok ret env2 => if isError ret = true then .ok ret env2 else .ok ret env2
       | other => other) := by
  intro o
  cases o with
  | ok ret env2 =>
    intro ho hi
    exact outcomeInv_ite (fun _ => fun hg => ho (hi hg)) (fun _ => fun hg => ho (hi hg))
  | goPanic s =>
    intro ho _
    exact ho
  | timeout =>
    intro _ _
    trivial

theorem argsInv_ite {env0 : Env} {c : Prop} [Decidable c] {a b : ArgsOutcome}
    (ha : c → ArgsInv env0 a) (hb : ¬c → ArgsInv env0 b) :
    ArgsInv env0 (if c then a else b) := by
  split_ifs with h
  · exact ha h
  · exact hb h

/-- The evaluation invariant, proved for the whole mutual block at once by
induction on the recursion budget: panics carry one of the four reasons,
and from a singleton-disciplined environment every normal return is
singleton-disciplined. -/
theorem evalInvariant : ∀ fuel : Nat,
    (∀ node env, OutcomeInv env (Eval fuel node env))
    ∧ (∀ stmts env, OutcomeInv env (evalStatement fuel stmts env))
    ∧ (∀ stmts env, OutcomeInv env (evalBlockStatement fuel stmts env))
    ∧ (∀ op e env, OutcomeInv env (evalPrefixExpression fuel op e env))
    ∧ (∀ l op r env, OutcomeInv env (evalInfixExpression fuel l op r env))
    ∧ (∀ c cons alt env, OutcomeInv env (evalIfExpression fuel c cons alt env))
    ∧ (∀ args env, ArgsInv env (evalArguments fuel args env))
    ∧ (∀ f args env, OutcomeInv env (evalCallExpression fuel f args env))
    ∧ (∀ ps body args env s,
        applyFunction fuel ps body args env = .goPanic s → PanicReason s)
    ∧ (∀ ps body args env, (∀ a ∈ args, goodOpt a = true) →
        OutcomeInv env (applyFunction fuel ps body args env)) := by
  intro fuel
  induction fuel with
  | zero =>
    refine ⟨?_, ?_, ?_, ?_, ?_, ?_, ?_, ?_, ?_, ?_⟩ <;> intros <;>
      simp_all [Eval, evalStatement, evalBlockStatement, evalPrefixExpression,
        evalInfixExpression, evalIfExpression, evalArguments, evalCallExpression,
        applyFunction, OutcomeInv, ArgsInv]
  | succ fuel ih =>
    obtain ⟨ihEval, ihStmt, ihBlock, ihPre, ihInf, ihIf, ihArgs, ihCall,
      ihAppP, ihAppG⟩ := ih
    refine ⟨?_, ?_, ?_, ?_, ?_, ?_, ?_, ?_, ?_, ?_⟩
    -- Eval
    · intro node env
      rcases node with stmts | s | e
      · simpa only [Eval] using ihStmt stmts env
      · cases s with
        | ExpressionStatement e => simpa only [Eval] using ihEval (.expression e) env
        | BlockStatement stmts => simpa only [Eval] using ihBlock stmts env
        | ReturnStatement e =>
          simp only [Eval]
          cases h : Eval fuel (.expression e) env with
          | timeout => trivial
          | goPanic s =>
            have h2 := ihEval (.expression e) env
            rw [h] at h2
            exact h2
          | ok r env1 =>
            have h2 := ihEval (.expression e) env
            rw [h] at h2
            intro hg
            obtain ⟨hr, he⟩ := h2 hg
            exact ⟨by rw [goodOpt_some, goodObj_returnValue]; exact hr, he⟩
        | LetStatement name value =>
          simp only [Eval]
          cases h : Eval fuel (.expression value) env with
          | timeout => trivial
          | goPanic s =>
            have h2 := ihEval (.expression value) env
            rw [h] at h2
            exact h2
          | ok val env1 =>
            have h2 := ihEval (.expression value) env
            rw [h] at h2
            refine outcomeInv_ite (fun hv => fun hg => h2 hg) (fun hv => ?_)
            intro hg
            obtain ⟨hval, he1⟩ := h2 hg
            exact ⟨rfl, goodEnv_envSet name val hval env1 he1⟩
      · cases e with
        | Identifier name => simpa only [Eval] using outcomeInv_identifier name env
        | IntegerLiteral v =>
          simp only [Eval]
          exact fun hg => ⟨by simp [goodOpt, goodObj], hg⟩
        | BooleanLiteral v =>
          simp only [Eval]
          exact fun hg => ⟨by simp [goodOpt_some, goodObj_convert], hg⟩
        | StringLiteral s =>
          simp only [Eval]
          exact fun hg => ⟨by simp [goodOpt, goodObj], hg⟩
        | PrefixExpression op right => simpa only [Eval] using ihPre op right env
        | InfixExpression l op r => simpa only [Eval] using ihInf l op r env
        | IfExpression c cons alt => simpa only [Eval] using ihIf c cons alt env
        | FunctionLiteral ps body =>
          simp only [Eval]
          exact fun hg => ⟨by rw [goodOpt_some, goodObj_function]; exact hg, hg⟩
        | CallExpression f args => simpa only [Eval] using ihCall f args env
    -- evalStatement
    · intro stmts env
      cases stmts with
      | nil =>
        simp only [evalStatement]
        exact fun hg => ⟨rfl, hg⟩
      | cons s rest =>
        simp only [evalStatement]
        cases h : Eval fuel (.statement s) env with
        | timeout => trivial
        | goPanic s2 =>
          have h2 := ihEval (.statement s) env
          rw [h] at h2
          exact h2
        | ok r env1 =>
          have h2 := ihEval (.statement s) env
          rw [h] at h2
          rcases r with _ | obj
          · cases rest with
            | nil => exact fun hg => h2 hg
            | cons s2 rest2 =>
              exact outcomeInv_mono (ihStmt (s2 :: rest2) env1) (fun hg => (h2 hg).2)
          · cases obj
            case ReturnValue v =>
              intro hg
              obtain ⟨hr, he⟩ := h2 hg
              rw [goodOpt_some, goodObj_returnValue] at hr
              exact ⟨hr, he⟩
            case Error m => exact fun hg => h2 hg
            all_goals
              cases rest with
              | nil => exact fun hg => h2 hg
              | cons s2 rest2 =>
                exact outcomeInv_mono (ihStmt (s2 :: rest2) env1) (fun hg => (h2 hg).2)
    -- evalBlockStatement
    · intro stmts env
      cases stmts with
      | nil =>
        simp only [evalBlockStatement]
        exact fun hg => ⟨rfl, hg⟩
      | cons s rest =>
        simp only [evalBlockStatement]
        cases h : Eval fuel (.statement s) env with
        | timeout => trivial
        | goPanic s2 =>
          have h2 := ihEval (.statement s) env
          rw [h] at h2
          exact h2
        | ok r env1 =>
          have h2 := ihEval (.statement s) env
          rw [h] at h2
          rcases r with _ | obj
          · cases rest with
            | nil => exact fun hg => h2 hg
            | cons s2 rest2 =>
              exact outcomeInv_mono (ihBlock (s2 :: rest2) env1) (fun hg => (h2 hg).2)
          · cases obj
            case ReturnValue v => exact fun hg => h2 hg
            case Error m => exact fun hg => h2 hg
            all_goals
              cases rest with
              | nil => exact fun hg => h2 hg
              | cons s2 rest2 =>
                exact outcomeInv_mono (ihBlock (s2 :: rest2) env1) (fun hg => (h2 hg).2)
    -- evalPrefixExpression
    · intro op e env
      simp only [evalPrefixExpression]
      cases h : Eval fuel (.expression e) env with
      | timeout => trivial
      | goPanic s =>
        have h2 := ihEval (.expression e) env
        rw [h] at h2
        exact h2
      | ok r env1 =>
        have h2 := ihEval (.expression e) env
        rw [h] at h2
        simp only []
        refine outcomeInv_ite (fun he => fun hg => h2 hg) (fun he => ?_)
        refine outcomeInv_ite
          (fun hb => fun hg => ⟨by rw [goodOpt_some]; exact goodObj_bang r, (h2 hg).2⟩)
          (fun hb => ?_)
        refine outcomeInv_ite
          (fun hm => liftRes_inv (resInv_minusOperator r) (fun hg => (h2 hg).2))
          (fun hm => ?_)
        rcases r with _ | rv
        · exact panicReason_nil
        · exact fun hg => ⟨by simp [goodOpt_some, goodObj], (h2 hg).2⟩
    -- evalInfixExpression
    · intro l op r env
      simp only [evalInfixExpression]
      cases hL : Eval fuel (.expression l) env with
      | timeout => trivial
      | goPanic s =>
        have h2 := ihEval (.expression l) env
        rw [hL] at h2
        exact h2
      | ok lv env1 =>
        have h2 := ihEval (.expression l) env
        rw [hL] at h2
        simp only []
        cases hR : Eval fuel (.expression r) env1 with
        | timeout => trivial
        | goPanic s =>
          have h3 := ihEval (.expression r) env1
          rw [hR] at h3
          exact h3
        | ok rv env2 =>
          have h3 := ihEval (.expression r) env1
          rw [hR] at h3
          simp only []
          have henv2 : goodEnv env = true → goodEnv env2 = true :=
            fun hg => (h3 ((h2 hg).2)).2
          refine outcomeInv_ite (fun hel => fun hg => ⟨(h2 hg).1, henv2 hg⟩)
            (fun hel => ?_)
          refine outcomeInv_ite (fun her => fun hg => ⟨(h3 ((h2 hg).2)).1, henv2 hg⟩)
            (fun her => ?_)
          rcases lv with _ | lobj
          · exact panicReason_nil
          · cases lobj
            case Integer a =>
              exact liftRes_inv (resInv_integerOperator op _ rv) henv2
            case Boolean a f =>
              exact liftRes_inv (resInv_booleanOperator op _ rv) henv2
            case String a =>
              exact liftRes_inv (resInv_stringOperator op _ rv) henv2
            case Error m => exact absurd rfl hel
            all_goals rcases rv with _ | robj
            all_goals first
              | exact panicReason_nil
              | exact fun hg => ⟨by simp [goodOpt_some, goodObj], henv2 hg⟩
    -- evalIfExpression
    · intro c cons alt env
      simp only [evalIfExpression]
      cases h : Eval fuel (.expression c) env with
      | timeout => trivial
      | goPanic s =>
        have h2 := ihEval (.expression c) env
        rw [h] at h2
        exact h2
      | ok condv env1 =>
        have h2 := ihEval (.expression c) env
        rw [h] at h2
        simp only []
        exact ifOutcomeInv _ (ifBranchInv fuel ihEval condv cons alt env1)
          (fun hg => (h2 hg).2)
    -- evalArguments
    · intro args env
      cases args with
      | nil =>
        simp only [evalArguments]
        exact fun hg => ⟨by simp, hg⟩
      | cons a rest =>
        simp only [evalArguments]
        cases h : Eval fuel (.expression a) env with
        | timeout => trivial
        | goPanic s =>
          have h2 := ihEval (.expression a) env
          rw [h] at h2
          exact h2
        | ok v env1 =>
          have h2 := ihEval (.expression a) env
          rw [h] at h2
          simp only []
          refine argsInv_ite (fun he => fun hg => h2 hg) (fun he => ?_)
          cases hrest : evalArguments fuel rest env1 with
            | ok vs env2 =>
              have h3 := ihArgs rest env1
              rw [hrest] at h3
              intro hg
              obtain ⟨hv, he1⟩ := h2 hg
              obtain ⟨hvs, he2⟩ := h3 he1
              refine ⟨?_, he2⟩
              intro x hx
              rcases List.mem_cons.mp hx with rfl | hx'
              · exact hv
              · exact hvs x hx'
            | early o =>
              have h3 := ihArgs rest env1
              rw [hrest] at h3
              exact outcomeInv_mono h3 (fun hg => (h2 hg).2)
    -- evalCallExpression
    · intro f args env
      simp only [evalCallExpression]
      cases h : Eval fuel (.expression f) env with
      | timeout => trivial
      | goPanic s =>
        have h2 := ihEval (.expression f) env
        rw [h] at h2
        exact h2
      | ok fv env1 =>
        have h2 := ihEval (.expression f) env
        rw [h] at h2
        simp only []
        refine outcomeInv_ite (fun he => fun hg => h2 hg) (fun he => ?_)
        cases hargs : evalArguments fuel args env1 with
          | early o =>
            have h3 := ihArgs args env1
            rw [hargs] at h3
            exact outcomeInv_mono h3 (fun hg => (h2 hg).2)
          | ok argvs env2 =>
            have h3 := ihArgs args env1
            rw [hargs] at h3
            simp only []
            rcases fv with _ | fobj
            · exact panicReason_interface
            · cases fobj
              case Function ps body cenv =>
                simp only []
                cases happ : applyFunction fuel ps body argvs env2 with
                | timeout => trivial
                | goPanic s => exact ihAppP ps body argvs env2 s happ
                | ok r env3 =>
                  intro hg
                  have he1 := (h2 hg).2
                  obtain ⟨hvs, he2⟩ := h3 he1
                  have h4 := ihAppG ps body argvs env2 hvs
                  rw [happ] at h4
                  exact h4 he2
              all_goals exact panicReason_interface
    -- applyFunction: panic classification
    · intro ps body args env s h
      simp only [applyFunction] at h
      cases hb : bindArguments ps args [] with
      | none =>
        rw [hb] at h
        cases h
        exact panicReason_index
      | some frame =>
        rw [hb] at h
        simp only [] at h
        cases hbody : Eval fuel (.statement (.BlockStatement body)) (frame :: env) with
        | ok r env3 => rw [hbody] at h; cases h
        | timeout => rw [hbody] at h; cases h
        | goPanic s2 =>
          rw [hbody] at h
          cases h
          have h2 := ihEval (.statement (.BlockStatement body)) (frame :: env)
          rw [hbody] at h2
          exact h2
    -- applyFunction: goodness
    · intro ps body args env hargs
      simp only [applyFunction]
      cases hb : bindArguments ps args [] with
      | none => exact panicReason_index
      | some frame =>
        simp only []
        cases hbody : Eval fuel (.statement (.BlockStatement body)) (frame :: env) with
        | timeout => trivial
        | goPanic s =>
          have h2 := ihEval (.statement (.BlockStatement body)) (frame :: env)
          rw [hbody] at h2
          exact h2
        | ok r env3 =>
          intro hg
          have hframe : goodFrame frame = true :=
            goodFrame_bindArguments ps [] frame goodFrame_nil hargs hb
          have henc : goodEnv (frame :: env) = true := by
            rw [goodEnv_cons]
            simp [hframe, hg]
          have h2 := ihEval (.statement (.BlockStatement body)) (frame :: env)
          rw [hbody] at h2
          exact ⟨(h2 henc).1, hg⟩

/-! ## C8 — every produced Boolean is a singleton -/

/-- C8: every Boolean-typed object the evaluator returns — from boolean
literals, comparisons, or `!` — is the process-wide `TRUE` or `FALSE`
singleton (identity modelled by the freshness flag), never a fresh
allocation, provided evaluation starts from a singleton-disciplined
environment; this is what makes the if-expression's identity comparison of
the condition against `TRUE` valid. -/
theorem claimC8_booleans_are_singletons :
    ∀ fuel node env value isFresh env1,
      goodEnv env = true →
      Eval fuel node env = .ok (some (.Boolean value isFresh)) env1 →
      Obj.Boolean value isFresh = TRUE ∨ Obj.Boolean value isFresh = FALSE := by
  intro fuel node env value isFresh env1 hg h
  have hinv := (evalInvariant fuel).1 node env
  rw [h] at hinv
  have hgood := (hinv hg).1
  rw [goodOpt_some] at hgood
  simp only [goodObj, Bool.not_eq_true'] at hgood
  subst hgood
  cases value
  · right
    rfl
  · left
    rfl

/-- Witness for C8: `1 < 2` from the empty environment produces the `TRUE`
singleton. -/
theorem claimC8_witness :
    Obj.Boolean true false = TRUE ∨ Obj.Boolean true false = FALSE :=
  claimC8_booleans_are_singletons 10
    (.expression (.InfixExpression (.IntegerLiteral 1) "<" (.IntegerLiteral 2)))
    NewEnvironment true false NewEnvironment (by simp [goodEnv, goodFrame]) rfl

/-! ## C2 (amended) — panic classification and divergence -/

/-- The self-application call `x(x)` of `selfApplyProgram`'s function body. -/
def selfCall : Expr := .CallExpression (.Identifier "x") [.Identifier "x"]

/-- The function value `fn(x)\x7b x(x) \x7d` created by `selfApplyProgram`'s
`let` from the top-level environment. -/
def selfFn : Obj := .Function ["x"] [.ExpressionStatement selfCall] NewEnvironment

/-- A call of the self-application function through any name bound to it
exhausts every recursion budget. -/
theorem selfApply_timeout_aux : ∀ fuel (name : String) (env : Env),
    envGet name env = some (some selfFn) → name ≠ "null" →
    Eval fuel (.expression (.CallExpression (.Identifier name) [.Identifier name])) env
      = .timeout := by
  intro fuel
  induction fuel using Nat.strong_induction_on with
  | _ n ih =>
    intro name env h hn
    rcases n with _ | n
    · rfl
    rcases n with _ | n
    · rfl
    rcases n with _ | n
    · rfl
    rcases n with _ | n
    · simp [Eval, evalCallExpression, evalArguments, applyFunction,
        evalIdentifierExpression, evalBlockStatement, isError, bindArguments,
        frameSet, h, hn, selfFn, selfCall]
    rcases n with _ | n
    · simp [Eval, evalCallExpression, evalArguments, applyFunction,
        evalIdentifierExpression, evalBlockStatement, isError, bindArguments,
        frameSet, h, hn, selfFn, selfCall]
    rcases n with _ | n
    · simp [Eval, evalCallExpression, evalArguments, applyFunction,
        evalIdentifierExpression, evalBlockStatement, isError, bindArguments,
        frameSet, h, hn, selfFn, selfCall]
    · have hih : Eval n
          (.expression (.CallExpression (.Identifier "x") [.Identifier "x"]))
          ([("x", some (Obj.Function ["x"]
            [.ExpressionStatement (.CallExpression (.Identifier "x") [.Identifier "x"])]
            NewEnvironment))] :: env) = .timeout :=
        ih n (by omega) "x" _ (by simp [envGet, frameGet, selfFn, selfCall]) (by decide)
      simp [Eval, evalCallExpression, evalArguments, applyFunction,
        evalIdentifierExpression, evalBlockStatement, isError, bindArguments,
        frameSet, h, hn, selfFn, selfCall, hih]

/-- C2 as amended: evaluation under any recursion budget yields exactly one
outcome, and an abnormal outcome is either a panic of exactly one of four
kinds — a call whose callee is not a function value (interface conversion),
a call with more arguments than parameters (index out of range), an integer
division by zero, or inspecting the type of a nil operand (nil pointer
dereference) — or an exhausted budget, which the self-application program
`let f = fn(x)\x7b x(x) \x7d; f(f)` reaches under every budget. -/
theorem claimC2_amended :
    (∀ fuel node env s, Eval fuel node env = .goPanic s →
        s = interfaceConversionPanic ∨ s = indexOutOfRangePanic
          ∨ s = divideByZeroPanic ∨ s = nilPointerPanic)
    ∧ (∀ fuel, Eval fuel selfApplyProgram NewEnvironment = .timeout) := by
  constructor
  · intro fuel node env s h
    have hinv := (evalInvariant fuel).1 node env
    rw [h] at hinv
    exact hinv
  · intro fuel
    rcases fuel with _ | fuel
    · rfl
    rcases fuel with _ | fuel
    · rfl
    rcases fuel with _ | fuel
    · rfl
    rcases fuel with _ | fuel
    · rfl
    · have haux : Eval fuel
          (.expression (.CallExpression (.Identifier "f") [.Identifier "f"]))
          [[("f", some (Obj.Function ["x"]
            [.ExpressionStatement (.CallExpression (.Identifier "x") [.Identifier "x"])]
            [[]]))]] = .timeout :=
        selfApply_timeout_aux fuel "f" _
          (by simp [envGet, frameGet, selfFn, selfCall, NewEnvironment]) (by decide)
      simp [selfApplyProgram, Eval, evalStatement, isError, envSet, frameSet,
        NewEnvironment, haux]

/-- Witness for C2 as amended: the concrete panic of `5(3)` is classified,
and the self-application program times out at budget 100. -/
theorem claimC2_witness :
    (interfaceConversionPanic = interfaceConversionPanic
      ∨ interfaceConversionPanic = indexOutOfRangePanic
      ∨ interfaceConversionPanic = divideByZeroPanic
      ∨ interfaceConversionPanic = nilPointerPanic)
    ∧ Eval 100 selfApplyProgram NewEnvironment = .timeout := by
  constructor
  · exact claimC2_amended.1 50 fiveOfThreeProgram NewEnvironment
      interfaceConversionPanic rfl
  · exact claimC2_amended.2 100
